import Mathlib

/-!
Shallow embedding of the download-orchestration core of the
youtube-downloader-app repository, and proofs checking the claims of its
natural-language specification against the code.

Strings from the Python source are modelled as `List Char`; Python string
operations (`in`, `split`, `startswith`, `strip`, `lower`) are given
explicit structural-recursive definitions below so that every definition
is executable.
-/

namespace YtDl

/-! ### Python string primitives -/

/-- Python `sep in s` / first occurrence search: the suffix of `l` that
follows the first occurrence of `pat`, or `none` when `pat` does not occur.
(For the nonempty patterns used in the source, `isSome` coincides with
Python's `pat in l`.) -/
def afterFirst (pat : List Char) : List Char → Option (List Char)
  | [] => if pat = [] then some [] else none
  | c :: rest =>
    if pat.isPrefixOf (c :: rest) then some ((c :: rest).drop pat.length)
    else afterFirst pat rest

/-- Python substring containment `pat in l` (for nonempty `pat`). -/
def containsSub (pat l : List Char) : Bool :=
  (afterFirst pat l).isSome

/-- The prefix of `l` that precedes the first occurrence of `pat`
(all of `l` when `pat` does not occur): this is `l.split(pat)[0]`. -/
def upTo (pat : List Char) : List Char → List Char
  | [] => []
  | c :: rest =>
    if pat.isPrefixOf (c :: rest) then []
    else c :: upTo pat rest

/-- ASCII lower-casing of one character, as Python `str.lower` acts on the
ASCII range (the URLs and identifiers in this program are ASCII). -/
def charLower (c : Char) : Char :=
  if 65 ≤ c.toNat ∧ c.toNat ≤ 90 then Char.ofNat (c.toNat + 32) else c

/-- Python `str.lower`. -/
def pyLower (l : List Char) : List Char := l.map charLower

/-- Whitespace characters stripped by Python `str.strip()` (space, tab,
LF, CR, VT, FF — by codepoint). -/
def isSpaceChar (c : Char) : Bool :=
  c.toNat = 32 || c.toNat = 9 || c.toNat = 10 || c.toNat = 13 ||
  c.toNat = 11 || c.toNat = 12

/-- Python `str.strip()`: drop leading and trailing whitespace. -/
def pyStrip (l : List Char) : List Char :=
  ((l.dropWhile isSpaceChar).reverse.dropWhile isSpaceChar).reverse

/-- Python `s.startswith(pat)`. -/
def startsWith (pat l : List Char) : Bool := pat.isPrefixOf l

/-- Python truthiness of an optional string (`None` and `""` are falsy). -/
def pyTruthyStr : Option (List Char) → Bool
  | some s => !s.isEmpty
  | none => false

/-! ### `gui/progress_tracker.py` -/

/-- `ProgressTracker._extract_video_id`:
`'youtube.com/watch?v=' in url` then `url.split('watch?v=')[1].split('&')[0]`,
else `'youtu.be/' in url` then `url.split('youtu.be/')[1].split('?')[0]`,
else `None`.  (`split(sep)[1]` is the segment between the first and second
occurrence of `sep`.) -/
def extract_video_id (url : List Char) : Option (List Char) :=
  if containsSub ("youtube.com/watch?v=".data) url then
    (afterFirst ("watch?v=".data) url).map
      (fun rest => upTo ("&".data) (upTo ("watch?v=".data) rest))
  else if containsSub ("youtu.be/".data) url then
    (afterFirst ("youtu.be/".data) url).map
      (fun rest => upTo ("?".data) (upTo ("youtu.be/".data) rest))
  else none

/-- `ProgressTracker._urls_match`: `id1 == id2 if id1 and id2 else False`
(Python truthiness: a missing or empty id yields `False`). -/
def urls_match (url1 url2 : List Char) : Bool :=
  match extract_video_id url1, extract_video_id url2 with
  | some id1, some id2 =>
    if id1.isEmpty || id2.isEmpty then false else id1 == id2
  | _, _ => false

/-- One record of `ProgressTracker.video_progress` (the per-URL dict value:
tree item handle, display index, title, status, percent).  Percentages are
modelled as rationals. -/
structure VideoInfo where
  itemId : Nat
  index : List Char
  title : List Char
  status : List Char
  progress : ℚ
  deriving DecidableEq, Repr

/-- The `video_progress` dict, as an insertion-ordered association list. -/
abbrev Registry : Type := List (List Char × VideoInfo)

/-- One row of the `videos_tree` widget: the four displayed cells
(index, truncated title, status, percent — the percent cell is kept as the
displayed number). -/
structure TreeRow where
  colIndex : List Char
  colTitle : List Char
  colStatus : List Char
  colProgress : ℚ
  deriving DecidableEq, Repr

/-- The tree widget: item handle ↦ row. -/
abbrev Tree : Type := List (Nat × TreeRow)

/-- Dict lookup `self.video_progress[url]` / membership `url in …`. -/
def lookupReg (reg : Registry) (url : List Char) : Option VideoInfo :=
  (List.find? (fun kv => kv.1 = url) reg).map (·.2)

/-- The title shown in the tree: `title[:40] + "..." if len(title) > 40`. -/
def displayTitle (title : List Char) : List Char :=
  if title.length > 40 then title.take 40 ++ ("...".data) else title

/-- `ProgressTracker.add_video_to_progress`: a URL already tracked is left
untouched and its existing tree-item handle is returned; otherwise a fresh
tree row is inserted and the record is registered with status `Pending`,
progress 0.  (The fresh tkinter item handle is modelled as `tree.length`.) -/
def add_video_to_progress (reg : Registry) (tree : Tree)
    (index title url : List Char) : Registry × Tree × Nat :=
  match lookupReg reg url with
  | some info => (reg, tree, info.itemId)
  | none =>
    let itemId := tree.length
    let row : TreeRow :=
      { colIndex := index, colTitle := displayTitle title
        colStatus := ("Pending".data), colProgress := 0 }
    (reg ++ [(url, { itemId := itemId, index := index, title := title
                     status := ("Pending".data), progress := 0 })],
     tree ++ [(itemId, row)], itemId)

/-- `ProgressTracker._find_video_by_url`: exact dict lookup first, then the
first tracked URL with a matching video id.  (The source returns the record;
the key is carried alongside here so results can name the resolved entry.) -/
def find_video_by_url (reg : Registry) (url : List Char) :
    Option (List Char × VideoInfo) :=
  match lookupReg reg url with
  | some info => some (url, info)
  | none => List.find? (fun kv => urls_match url kv.1) reg

/-- `ProgressTracker.update_video_progress`: resolve the record via
`_find_video_by_url`; on a miss, log and return with nothing changed.
On a hit, update the stored fields (`if status:` and `if title:` are Python
truthiness tests, `if progress is not None:` is a `None` test) and rewrite
the tree row; a missing tree item raises inside the inner `try`, which is
caught, leaving the tree untouched. -/
def update_video_progress (reg : Registry) (tree : Tree) (url : List Char)
    (status : Option (List Char)) (progress : Option ℚ)
    (title : Option (List Char)) : Registry × Tree :=
  match find_video_by_url reg url with
  | none => (reg, tree)
  | some (key, info) =>
    let newInfo : VideoInfo :=
      { info with
        status := if pyTruthyStr status then status.getD info.status else info.status
        progress := progress.getD info.progress
        title := if pyTruthyStr title then title.getD info.title else info.title }
    let newReg : Registry :=
      reg.map (fun kv => if kv.1 = key then (key, newInfo) else kv)
    let newTree : Tree :=
      tree.map (fun it =>
        if it.1 = info.itemId then
          (it.1,
           { it.2 with
             colTitle := if pyTruthyStr title then displayTitle (title.getD []) else it.2.colTitle
             colStatus := if pyTruthyStr status then status.getD it.2.colStatus else it.2.colStatus
             colProgress := progress.getD it.2.colProgress })
        else it)
    (newReg, newTree)

/-- Is a record's status `Completed` or `Failed`? -/
def isTerminalStatus (v : VideoInfo) : Bool :=
  v.status = ("Completed".data) || v.status = ("Failed".data)

/-- `ProgressTracker.update_overall_progress`, as the value the overall
progress bar holds after the call: an empty registry returns early (the bar
keeps its previous value `bar`); otherwise the bar is set to
`(completed / total) * 100` where `completed` counts `Completed`/`Failed`
records. -/
def update_overall_progress (reg : Registry) (bar : ℚ) : ℚ :=
  if reg.isEmpty then bar
  else
    let completed := reg.countP (fun kv => isTerminalStatus kv.2)
    let total := reg.length
    if 0 < total then ((completed : ℚ) / (total : ℚ)) * 100 else bar

/-- Modelled from the spec: the Identity Canonicalizer's `canonicalize`.
The stable-identifier extraction is `_extract_video_id` from the source;
the no-identifier fallback — "returning the trimmed, lower-cased URL itself
as the identity" — exists only in the spec's words and is modelled from
them, since the source has no such fallback. -/
def canonicalize (url : List Char) : List Char :=
  match extract_video_id url with
  | some id => id
  | none => pyLower (pyStrip url)

/-! ### `gui/download_manager.py` -/

/-- The fields of the yt-dlp progress-callback dict `d` that
`DownloadManager.progress_hook` reads (`d.get('downloaded_bytes', 0)`
defaults to 0; the two totals may be absent). -/
structure HookData where
  status : List Char
  filename : List Char
  downloadedBytes : Nat
  totalBytes : Option Nat
  totalBytesEstimate : Option Nat

/-- A message put on `self.message_queue` by the hook (the textual part of
`current_progress` is elided; the percent is what the claims speak about),
or the `_terminate_all_processes()` call made when the stop flag is set. -/
inductive HookMsg where
  | terminateAll
  | currentProgress (progress : ℚ)
  | videoProgress (url : List Char) (status : List Char) (progress : ℚ)
  deriving DecidableEq, Repr

/-- The hook's auxiliary-artifact test:
`any(skip_term in filename.lower() for skip_term in ['fragment', '.vtt', '.srt', 'temp'])`. -/
def isAuxiliaryFile (filename : List Char) : Bool :=
  containsSub ("fragment".data) (pyLower filename) ||
  containsSub (".vtt".data) (pyLower filename) ||
  containsSub (".srt".data) (pyLower filename) ||
  containsSub ("temp".data) (pyLower filename)

/-- Python `a or b` on optional numbers (`None` and `0` are falsy):
`d.get('total_bytes') or d.get('total_bytes_estimate')`. -/
def pyOrNat : Option Nat → Option Nat → Option Nat
  | some n, b => if n = 0 then b else some n
  | none, b => b

/-- Python numeric truthiness of an optional count. -/
def pyTruthyNat : Option Nat → Bool
  | some n => n ≠ 0
  | none => false

/-- `DownloadManager._download_worker`'s local `progress_hook(d)`, as the
list of messages it emits.  With the stop flag set it terminates processes
and returns.  In the `'downloading'` phase it skips auxiliary files, and
otherwise (when total and downloaded bytes are truthy) reports the percent
and a `Downloading` status for the current URL.  In the `'finished'` phase
it reports `Completed` at 100 for the current URL — with no filename
filter. -/
def progress_hook (stopped : Bool) (currentUrl : Option (List Char))
    (d : HookData) : List HookMsg :=
  if stopped then [HookMsg.terminateAll]
  else if d.status = ("downloading".data) then
    let total := pyOrNat d.totalBytes d.totalBytesEstimate
    if isAuxiliaryFile d.filename then []
    else if pyTruthyNat total && d.downloadedBytes ≠ 0 then
      let pct : ℚ := ((d.downloadedBytes : ℚ) / ((total.getD 0 : Nat) : ℚ)) * 100
      HookMsg.currentProgress pct ::
        (match currentUrl with
         | some u => [HookMsg.videoProgress u ("Downloading".data) pct]
         | none => [])
    else []
  else if d.status = ("finished".data) then
    match currentUrl with
    | some u => [HookMsg.videoProgress u ("Completed".data) 100]
    | none => []
  else []

/-- What `stop_download` / the hook observe about one tracked subprocess:
whether `poll()` reports it still running at each pass, and whether
`terminate()` / `kill()` raise. -/
structure ProcBehavior where
  runningAtFirstPoll : Bool
  terminateRaises : Bool
  runningAtSecondPoll : Bool
  killRaises : Bool
  deriving DecidableEq, Repr

/-- `DownloadManager._terminate_all_processes`, as the final value of
`self.running_processes` (handles modelled by their pids, behaviour by an
oracle).  The graceful pass never touches the list; the force-kill pass
iterates a snapshot `self.running_processes[:]` and `remove`s each handle
whose `kill()` returned (every per-handle error is swallowed by an inner
`except`); then `self.running_processes.clear()` runs — and the outer
`except` path also ends in `clear()`. -/
def terminate_all_processes (pids : List Nat) (behavior : Nat → ProcBehavior) :
    List Nat :=
  -- graceful pass: terminate() calls only, list unchanged
  let live1 := pids
  -- force-kill pass over the snapshot, removing successfully killed handles
  let live2 := pids.foldl
    (fun live p =>
      let b := behavior p
      if b.runningAtSecondPoll then
        if b.killRaises then live else live.erase p
      else live)
    live1
  -- `self.running_processes.clear()`
  let _ := live2
  []

/-- The final tallies of `_download_worker`'s `("complete", …)` message. -/
structure BatchSummary where
  successful : Nat
  failed : Nat
  total : Nat
  deriving DecidableEq, Repr

/-- Python dict assignment `d[k] = v` on an insertion-ordered association
list: an existing key keeps its position and gets the new value, a new key
is appended. -/
def dictInsert (d : List (List Char × Bool)) (k : List Char) (v : Bool) :
    List (List Char × Bool) :=
  if (List.find? (fun kv => kv.1 = k) d).isSome then
    d.map (fun kv => if kv.1 = k then (k, v) else kv)
  else d ++ [(k, v)]

/-- Dict lookup on the results dict. -/
def dictFind (d : List (List Char × Bool)) (k : List Char) : Option Bool :=
  (List.find? (fun kv => kv.1 = k) d).map (·.2)

/-- The `results` dict built by `_download_worker`'s URL loop (run to
completion, stop flag never set): `results[url] = <outcome of attempt i>`
for the `i`-th URL, in order.  The outcome of the `i`-th attempt — success,
failure, or an exception caught by the per-URL `except` (also recorded as
`False`) — is the oracle `outcome i`. -/
def runResults (outcome : Nat → Bool) :
    Nat → List (List Char × Bool) → List (List Char) → List (List Char × Bool)
  | _, d, [] => d
  | i, d, u :: rest => runResults outcome (i + 1) (dictInsert d u (outcome i)) rest

/-- `_download_worker`'s completion message:
`successful = sum(1 for success in results.values() if success)`,
`failed = len(urls) - successful`, `total = len(urls)`. -/
def download_worker (urls : List (List Char)) (outcome : Nat → Bool) :
    BatchSummary :=
  let results := runResults outcome 0 [] urls
  let successful := results.countP (fun kv => kv.2)
  { successful := successful, failed := urls.length - successful
    total := urls.length }

/-- The outcome of the `i`-th URL's *last* occurrence in the list (indices
starting at `i0`): the download result a duplicate URL ends up with in the
results dict. -/
def lastOutcome (outcome : Nat → Bool) (i0 : Nat) :
    List (List Char) → List Char → Option Bool
  | [], _ => none
  | u :: rest, k =>
    match lastOutcome outcome (i0 + 1) rest k with
    | some b => some b
    | none => if u = k then some (outcome i0) else none

/-! ### `enhanced_downloader.py` -/

/-- The external engine's response to one `download_with_strategy` call:
`ydl.download` returns, or raises with a message. -/
inductive StratOutcome where
  | ok
  | err (msg : List Char)
  deriving DecidableEq, Repr

/-- The engine as seen by one item: option-set name ↦ outcome. -/
abbrev StrategyRun := List Char → StratOutcome

/-- The option-set dispatch of `download_with_strategy`: `'primary'`,
`'fallback'` and `'audio'` select their option dicts; any other name falls
back to the primary options. -/
def optsFor (strategy : List Char) : List Char :=
  if strategy = ("primary".data) then ("primary".data)
  else if strategy = ("fallback".data) then ("fallback".data)
  else if strategy = ("audio".data) then ("audio".data)
  else ("primary".data)

/-- `EnhancedYouTubeDownloader.download_with_strategy`: returns `True` when
the engine call returns, and on any exception logs
`Strategy '<name>' failed: <msg>` and returns `False`.  The second
component is the logged (strategy, raw error) pair, if any. -/
def download_with_strategy (run : StrategyRun) (strategy : List Char) :
    Bool × Option (List Char × List Char) :=
  match run (optsFor strategy) with
  | .ok => (true, none)
  | .err e => (false, some (strategy, e))

/-- `EnhancedYouTubeDownloader.download_single_video_enhanced`: try
`primary`, then `fallback`, then `audio`, returning at the first success;
`False` after all three.  The trace records each attempt (strategy name and
engine outcome) in call order. -/
def download_single_video_enhanced (run : StrategyRun) :
    Bool × List (List Char × StratOutcome) :=
  match run (optsFor ("primary".data)) with
  | .ok => (true, [(("primary".data), .ok)])
  | .err e1 =>
    match run (optsFor ("fallback".data)) with
    | .ok => (true, [(("primary".data), .err e1), (("fallback".data), .ok)])
    | .err e2 =>
      match run (optsFor ("audio".data)) with
      | .ok => (true, [(("primary".data), .err e1), (("fallback".data), .err e2),
                       (("audio".data), .ok)])
      | .err e3 => (false, [(("primary".data), .err e1), (("fallback".data), .err e2),
                            (("audio".data), .err e3)])

/-- The strategy chain in array order. -/
def chainStrategies : List (List Char) :=
  [("primary".data), ("fallback".data), ("audio".data)]

/-- The per-child `if/elif/elif` strategy cascade inside
`download_playlist_enhanced`'s loop (short-circuiting `||` mirrors the
`elif`s). -/
def playlistChildSucceeds (run : StrategyRun) : Bool :=
  (download_with_strategy run ("primary".data)).1 ||
  (download_with_strategy run ("fallback".data)).1 ||
  (download_with_strategy run ("audio".data)).1

/-- `EnhancedYouTubeDownloader.download_playlist_enhanced`: `info` is the
flat metadata listing (`None` when `extract_info` raised or returned
nothing; `entries` holds `None` for each unresolvable child — an entry's
url/title only select what the engine fetches, so the per-child engine is
the oracle `run i`).  `None` entries are skipped; the function returns
`True` iff `successful_downloads > 0`. -/
def download_playlist_enhanced (info : Option (List (Option Unit)))
    (run : Nat → StrategyRun) : Bool :=
  match info with
  | none => false
  | some entries =>
    if entries.isEmpty then false
    else
      let successful := entries.enum.countP
        (fun ie => ie.2.isSome && playlistChildSucceeds (run ie.1))
      if 0 < successful then true else false

/-! ### `youtube_downloader.py` -/

/-- `YouTubeDownloader.download_playlist`: fails when the metadata probe
fails or the playlist has no entries; otherwise the whole playlist is
handed to one engine call and `successful_downloads` is the count of media
files found in the playlist folder afterwards (the same count is taken on
the `DownloadError` path), with `True` returned iff it is positive.
`fileCount` is that observed count. -/
def download_playlist (info : Option (List Char × List (Option Unit)))
    (fileCount : Nat) : Bool :=
  match info with
  | none => false
  | some (_, entries) =>
    if entries.isEmpty then false
    else if 0 < fileCount then true else false

/-! ### `urllib.parse` as used by `is_playlist_url`

`urlparse` and `parse_qs` are modelled on CPython 3.11 semantics,
including every `ValueError` path the classifier's `try` can see: the
netloc bracket-pairing check, `_check_bracketed_host` (IPvFuture regex, or
`ipaddress.ip_address` yielding IPv6 — with IPv4-in-brackets and
unparseable hosts raising), and `_checknetloc` (which raises exactly when
the netloc contains one of the finitely many characters whose NFKC
compatibility decomposition introduces one of `/?#@:`).

Percent-decoding is modelled byte-wise rather than through UTF-8: the
observable predicates (`name == 'list'`, `startswith(('PL',…))`) compare
against ASCII, and UTF-8 decoding maps non-ASCII bytes to non-ASCII
characters (or U+FFFD), never to ASCII, so the two agree on them.
Likewise `path.lower()` is modelled by ASCII lowering: the only non-ASCII
characters Python lowers into ASCII are U+212A (→ `k`, absent from
`playlist`) and U+0130 (→ `i` + U+0307, whose combining dot breaks any
`playlist` run), so containment of the fixed pattern agrees. -/

/-- The result sextuple of `urllib.parse.urlparse`. -/
structure UrlParts where
  scheme : List Char
  netloc : List Char
  path : List Char
  params : List Char
  query : List Char
  fragment : List Char
  deriving DecidableEq, Repr

/-- `urllib.parse.scheme_chars`. -/
def isSchemeChar (c : Char) : Bool :=
  ('a' ≤ c && c ≤ 'z') || ('A' ≤ c && c ≤ 'Z') || ('0' ≤ c && c ≤ '9') ||
  c = '+' || c = '-' || c = '.'

/-- `_splitparams`: split `;params` off the path (only a `;` in the last
path segment counts when the path has a `/`). -/
def splitParams (path : List Char) : List Char × List Char :=
  if containsSub (";".data) path then
    if containsSub ("/".data) path then
      let lastSeg := (path.reverse.takeWhile (fun c => c ≠ '/')).reverse
      let head := path.take (path.length - lastSeg.length)
      let segBefore := lastSeg.takeWhile (fun c => c ≠ ';')
      if segBefore.length < lastSeg.length then
        (head ++ segBefore, lastSeg.drop (segBefore.length + 1))
      else (path, [])
    else
      let pre := path.takeWhile (fun c => c ≠ ';')
      (pre, path.drop (pre.length + 1))
  else (path, [])

/-- A C0 control character or space (`_WHATWG_C0_CONTROL_OR_SPACE`). -/
def isC0OrSpace (c : Char) : Bool := c.toNat ≤ 32

/-- `_UNSAFE_URL_BYTES_TO_REMOVE`: tab, CR, LF are removed anywhere. -/
def isUnsafeUrlByte (c : Char) : Bool := c = '\t' || c = '\r' || c = '\n'

/-- ASCII `str.isalpha` as the scheme split's first-character test. -/
def isAsciiAlpha (c : Char) : Bool :=
  ('A' ≤ c && c ≤ 'Z') || ('a' ≤ c && c ≤ 'z')

/-- Python `s.split(sep)` for a single-character separator. -/
def splitOnChar (sep : Char) : List Char → List (List Char)
  | [] => [[]]
  | c :: rest =>
    if c = sep then [] :: splitOnChar sep rest
    else
      match splitOnChar sep rest with
      | [] => [[c]]
      | h :: t => (c :: h) :: t

/-- `ipaddress._BaseV4._parse_octet`: nonempty, ASCII decimal digits only,
at most 3 characters, no leading zero (except `0` itself), value at
most 255. -/
def parseOctet (s : List Char) : Option Nat :=
  if s.isEmpty then none
  else if !s.all (fun c => '0' ≤ c && c ≤ '9') then none
  else if s.length > 3 then none
  else if s ≠ ['0'] && s.head? = some '0' then none
  else
    let n := s.foldl (fun a c => a * 10 + (c.toNat - 48)) 0
    if n > 255 then none else some n

/-- `ipaddress.IPv4Address` from a string: nonempty, exactly four
dot-separated octets. -/
def parseIPv4 (s : List Char) : Option Nat :=
  if s.isEmpty then none
  else
    match (splitOnChar '.' s).mapM parseOctet with
    | some [a, b, c, d] => some (((a * 256 + b) * 256 + c) * 256 + d)
    | _ => none

/-- The numeric value of a hex digit. -/
def hexVal (c : Char) : Option Nat :=
  if '0' ≤ c && c ≤ '9' then some (c.toNat - 48)
  else if 'a' ≤ c && c ≤ 'f' then some (c.toNat - 87)
  else if 'A' ≤ c && c ≤ 'F' then some (c.toNat - 55)
  else none

/-- `ipaddress._BaseV6._parse_hextet`: hex digits only, at most 4 of them
(the empty hextet also fails, as `int('', 16)` raises). -/
def parseHextet (s : List Char) : Option Nat :=
  if !s.all (fun c => (hexVal c).isSome) then none
  else if s.length > 4 then none
  else if s.isEmpty then none
  else some (s.foldl (fun a c => a * 16 + (hexVal c).getD 0) 0)

/-- `'%x' % n`, for the two synthetic hextets an embedded IPv4 suffix is
rewritten into. -/
def hexOfNat (n : Nat) : List Char := Nat.toDigits 16 n

/-- `ipaddress._BaseV6._ip_int_from_string`, as a validity predicate (the
classifier only cares whether it raises): split on `:` into at least 3
parts; rewrite an IPv4-style last part into two hextets; at most 9 parts;
at most one interior empty part (the `::` skip), with an empty endpoint
only next to the skip; the skip must stand for at least one hextet; and
every remaining part must be a valid hextet. -/
def validIPv6NoScope (s : List Char) : Bool :=
  if s.isEmpty then false
  else
    let parts0 := splitOnChar ':' s
    if parts0.length < 3 then false
    else
      let lastPart := (parts0.getLast?).getD []
      let conv : Option (List (List Char)) :=
        if lastPart.contains '.' then
          match parseIPv4 lastPart with
          | none => none
          | some v4 =>
            some (parts0.dropLast ++ [hexOfNat (v4 / 65536), hexOfNat (v4 % 65536)])
        else some parts0
      match conv with
      | none => false
      | some parts =>
        if parts.length > 9 then false
        else
          let interior := (parts.drop 1).dropLast
          if 2 ≤ interior.countP (fun p => p.isEmpty) then false
          else
            let n := parts.length
            let p0 := parts.headD []
            let pn := (parts.getLast?).getD []
            match interior.findIdx? (fun p => p.isEmpty) with
            | some r =>
              let hi0 := r + 1
              let lo0 := n - (r + 1) - 1
              if p0.isEmpty && hi0 ≠ 1 then false
              else if pn.isEmpty && lo0 ≠ 1 then false
              else
                let hi := if p0.isEmpty then 0 else hi0
                let lo := if pn.isEmpty then 0 else lo0
                if 8 ≤ hi + lo then false
                else
                  (parts.take hi).all (fun p => (parseHextet p).isSome) &&
                  (parts.drop (n - lo)).all (fun p => (parseHextet p).isSome)
            | none =>
              if n ≠ 8 then false
              else if p0.isEmpty || pn.isEmpty then false
              else parts.all (fun p => (parseHextet p).isSome)

/-- `IPv6Address._split_scope_id` then the address parse: an optional
`%scope` suffix must be nonempty and contain no further `%`. -/
def validIPv6 (s : List Char) : Bool :=
  match afterFirst (['%']) s with
  | none => validIPv6NoScope s
  | some scope =>
    !scope.isEmpty && !scope.contains '%' && validIPv6NoScope (upTo (['%']) s)

/-- The regex `\Av[a-fA-F0-9]+\..+\Z` of the IPvFuture branch: `v`, a
nonempty run of hex digits, a dot, then at least one more character (`.`
does not match a newline, though none can reach here — `urlsplit` already
removed them). -/
def ipvFutureOk (hostname : List Char) : Bool :=
  match hostname with
  | 'v' :: t =>
    let h := t.takeWhile (fun c => (hexVal c).isSome)
    match t.drop h.length with
    | '.' :: r => !h.isEmpty && !r.isEmpty && r.all (fun c => c ≠ '\n')
    | _ => false
  | _ => false

/-- `urllib.parse._check_bracketed_host`: a host starting with `v` must be
an IPvFuture literal; otherwise `ipaddress.ip_address` must succeed and
yield IPv6 — a bracketed IPv4 address, or anything unparseable, raises. -/
def checkBracketedHost (hostname : List Char) : Bool :=
  if startsWith (['v']) hostname then ipvFutureOk hostname
  else if (parseIPv4 hostname).isSome then false
  else validIPv6 hostname

/-- The 19 scalar values whose NFKC compatibility decomposition contains
one of `/?#@:` (Unicode data as shipped with CPython 3.11): U+2047–U+2049,
U+2100, U+2101, U+2105, U+2106, U+2A74, U+FE13, U+FE16, U+FE55, U+FE56,
U+FE5F, U+FE6B, U+FF03, U+FF0F, U+FF1A, U+FF1F, U+FF20. -/
def nfkcForbidden (c : Char) : Bool :=
  c.toNat = 0x2047 || c.toNat = 0x2048 || c.toNat = 0x2049 ||
  c.toNat = 0x2100 || c.toNat = 0x2101 || c.toNat = 0x2105 ||
  c.toNat = 0x2106 || c.toNat = 0x2A74 || c.toNat = 0xFE13 ||
  c.toNat = 0xFE16 || c.toNat = 0xFE55 || c.toNat = 0xFE56 ||
  c.toNat = 0xFE5F || c.toNat = 0xFE6B || c.toNat = 0xFF03 ||
  c.toNat = 0xFF0F || c.toNat = 0xFF1A || c.toNat = 0xFF1F ||
  c.toNat = 0xFF20

/-- `urllib.parse._checknetloc` raises exactly when the netloc, with its
literal `@`/`:` separators removed, NFKC-normalizes to a string containing
one of `/?#@:` — equivalently (the netloc component never contains those
ASCII characters literally, composition cannot produce them, and ASCII
netlocs return early consistently) when some character of the netloc is in
the finite forbidden set. -/
def checknetlocOk (netloc : List Char) : Bool :=
  netloc.all (fun c => !nfkcForbidden c)

/-- `urllib.parse.uses_params`: the schemes whose path gets `;params`
split off by `urlparse`. -/
def usesParams : List (List Char) :=
  [[], ("ftp".data), ("hdl".data), ("prospero".data), ("http".data),
   ("imap".data), ("https".data), ("shttp".data), ("rtsp".data),
   ("rtspu".data), ("sip".data), ("sips".data), ("mms".data),
   ("sftp".data), ("tel".data)]

/-- `urllib.parse.urlparse` (via `urlsplit`): left-strip C0 controls and
spaces, drop every tab/CR/LF; split the scheme when the text before the
first `:` starts with an ASCII letter and is a run of scheme characters;
take the netloc after `//` up to the next `/`, `?` or `#`, raising
`ValueError` on a lone `[` or `]`, on a bracketed host that is neither an
IPvFuture literal nor a valid IPv6 address, or on a netloc containing an
NFKC-forbidden character (the exceptions the classifier's `try` sees);
split the fragment at the first `#`, the query at the first `?`, and — for
a scheme in `uses_params` — the params off the remaining path. -/
def urlparse (url0 : List Char) : Except Unit UrlParts :=
  let url := (url0.dropWhile isC0OrSpace).filter (fun c => !isUnsafeUrlByte c)
  -- scheme
  let pre := url.takeWhile (fun c => c ≠ ':')
  let firstAlpha := match url.head? with
    | some c => isAsciiAlpha c
    | none => false
  let (scheme, rest) :=
    if pre.length < url.length && 0 < pre.length && firstAlpha &&
        pre.all isSchemeChar then
      (pyLower pre, url.drop (pre.length + 1))
    else ([], url)
  -- netloc
  let (netlocResult : Except Unit (List Char × List Char)) :=
    if startsWith ("//".data) rest then
      let after := rest.drop 2
      let netloc := after.takeWhile (fun c => c ≠ '/' && c ≠ '?' && c ≠ '#')
      if containsSub ("[".data) netloc ≠ containsSub ("]".data) netloc then
        .error ()
      else if containsSub ("[".data) netloc && containsSub ("]".data) netloc &&
          !checkBracketedHost
            (upTo ("]".data) ((afterFirst ("[".data) netloc).getD [])) then
        .error ()
      else .ok (netloc, after.drop netloc.length)
    else .ok ([], rest)
  match netlocResult with
  | .error _ => .error ()
  | .ok (netloc, rest2) =>
    -- `_checknetloc` (raised at the end of `urlsplit`; order is immaterial
    -- since every raise collapses to the same error)
    if !checknetlocOk netloc then .error ()
    else
    -- fragment
    let body := rest2.takeWhile (fun c => c ≠ '#')
    let fragment :=
      if body.length < rest2.length then rest2.drop (body.length + 1) else []
    -- query
    let pathAndParams := body.takeWhile (fun c => c ≠ '?')
    let query :=
      if pathAndParams.length < body.length then body.drop (pathAndParams.length + 1)
      else []
    let (path, params) :=
      if usesParams.contains scheme then splitParams pathAndParams
      else (pathAndParams, [])
    .ok { scheme := scheme, netloc := netloc, path := path, params := params
          query := query, fragment := fragment }

/-- `urllib.parse.unquote`, byte-wise: a `%hh` pair decodes to the byte's
character, anything malformed is kept verbatim. -/
def unquotePct : List Char → List Char
  | [] => []
  | '%' :: a :: b :: rest =>
    match hexVal a, hexVal b with
    | some ha, some hb => Char.ofNat (16 * ha + hb) :: unquotePct rest
    | _, _ => '%' :: unquotePct (a :: b :: rest)
  | c :: rest => c :: unquotePct rest

/-- `unquote(s.replace('+', ' '))` as `parse_qsl` applies it to each name
and value. -/
def unquotePlus (l : List Char) : List Char :=
  unquotePct (l.map (fun c => if c = '+' then ' ' else c))

/-- One `name=value` chunk of a query string, under `parse_qsl`'s defaults
(`keep_blank_values=False`): empty chunks, chunks without `=` and chunks
with an empty value are dropped; names and values are plus/percent
decoded. -/
def qsPair (chunk : List Char) : Option (List Char × List Char) :=
  if chunk.isEmpty then none
  else
    let name := chunk.takeWhile (fun c => c ≠ '=')
    if name.length = chunk.length then none
    else
      let value := chunk.drop (name.length + 1)
      if value.isEmpty then none
      else some (unquotePlus name, unquotePlus value)

/-- `urllib.parse.parse_qsl(qs)` with default arguments (separator `&`). -/
def parse_qsl (qs : List Char) : List (List Char × List Char) :=
  (splitOnChar '&' qs).filterMap qsPair

/-- `parse_qs(qs)['list']`: all values of the `list` parameter, in order
(the dict's entry; `'list' in query_params` iff this is nonempty, and
`query_params['list'][0]` is its head). -/
def listParamValues (qs : List Char) : List (List Char) :=
  ((parse_qsl qs).filter (fun kv => kv.1 = ("list".data))).map (·.2)

/-- `list_id.startswith(('PL', 'UU', 'FL', 'RD', 'LL'))`. -/
def playlistIdStarts (v : List Char) : Bool :=
  startsWith ("PL".data) v || startsWith ("UU".data) v ||
  startsWith ("FL".data) v || startsWith ("RD".data) v ||
  startsWith ("LL".data) v

/-- `is_playlist_url` (identical in `youtube_downloader.py` and
`enhanced_downloader.py`): `True` when `'playlist' in parsed_url.path.lower()`,
else when the first value of the `list` query parameter starts with a known
playlist-id prefix; `False` otherwise, and `False` when `urlparse`
raises (the `except` branch). -/
def is_playlist_url (url : List Char) : Bool :=
  match urlparse url with
  | .error _ => false
  | .ok p =>
    if containsSub ("playlist".data) (pyLower p.path) then true
    else
      match listParamValues p.query with
      | [] => false
      | v :: _ => playlistIdStarts v

/-- The classifier's decision policy in the spec's words, for comparison
with `is_playlist_url`: `Collection` iff the path indicates a collection
resource, or the query string has a `list` parameter (some occurrence)
whose value starts with a known collection-id prefix. -/
def classifierSpecCondition (url : List Char) : Bool :=
  match urlparse url with
  | .error _ => false
  | .ok p =>
    containsSub ("playlist".data) (pyLower p.path) ||
    (listParamValues p.query).any playlistIdStarts

/-! ## Theorems -/

/-- C4: registering a URL that is already tracked is a no-op returning the
existing record's tree-item handle — no duplicate entry is created and the
stored index, title, status and progress are untouched (the registry and
the tree come back verbatim). -/
theorem c4_duplicate_registration_noop (reg : Registry) (tree : Tree)
    (index title url : List Char) (v : VideoInfo)
    (h : lookupReg reg url = some v) :
    add_video_to_progress reg tree index title url = (reg, tree, v.itemId) := by
  unfold add_video_to_progress
  rw [h]

/-- An already-populated registry used to exercise duplicate
registration. -/
def c4reg : Registry :=
  [(("u1").data,
    { itemId := 7, index := ("1").data, title := ("Song").data
      status := ("Downloading").data, progress := 55 })]

/-- C4 witness: re-registering `u1` (which sits at handle 7, mid-download
at 55%) returns handle 7 and changes nothing. -/
theorem c4_duplicate_registration_noop_witness :
    add_video_to_progress c4reg [] (("2").data) (("Other").data) (("u1").data) =
      (c4reg, [], 7) :=
  c4_duplicate_registration_noop c4reg [] (("2").data) (("Other").data)
    (("u1").data)
    { itemId := 7, index := ("1").data, title := ("Song").data
      status := ("Downloading").data, progress := 55 }
    (by decide)

/-- C9: after `_terminate_all_processes` returns, the registry of tracked
process handles is empty — whatever each handle's poll results were and
whether any `terminate()`/`kill()` raised, the final `clear()` (reached on
the normal path, and also on the outer `except` path) leaves zero tracked
handles. -/
theorem c9_terminate_all_clears (pids : List Nat)
    (behavior : Nat → ProcBehavior) :
    terminate_all_processes pids behavior = [] := rfl

/-- C2 counterexample: the claim says the overall-progress computation
"returns 0 when the registry is empty"; in the code the empty-registry
guard returns early without writing anything, so a bar previously showing
50 still shows 50 (reachable: `clear_video_progress` empties the registry
without resetting the bar). -/
theorem c2_empty_registry_not_zero :
    update_overall_progress ([] : Registry) 50 = 50 ∧ (50 : ℚ) ≠ 0 := by
  refine ⟨rfl, by norm_num⟩

/-- C2 (amended): on an empty registry the routine is a no-op (the
division-by-zero guard skips the computation, leaving the bar unchanged);
on a nonempty registry the bar is set to
`100 * completedOrFailedCount / totalCount`, which equals 100 once every
tracked item is Completed or Failed. -/
theorem c2_overall_progress (reg : Registry) (bar : ℚ) :
    (reg = [] → update_overall_progress reg bar = bar) ∧
    (reg ≠ [] →
      update_overall_progress reg bar =
        100 * ((reg.countP (fun kv => isTerminalStatus kv.2) : ℚ)) /
          ((reg.length : ℚ)) ∧
      ((∀ kv ∈ reg, isTerminalStatus kv.2 = true) →
        update_overall_progress reg bar = 100)) := by
  constructor
  · rintro rfl
    rfl
  · intro hne
    have hlen : 0 < reg.length := List.length_pos.mpr hne
    have hmain : update_overall_progress reg bar =
        100 * ((reg.countP (fun kv => isTerminalStatus kv.2) : ℚ)) /
          ((reg.length : ℚ)) := by
      unfold update_overall_progress
      rw [if_neg (by simpa [List.isEmpty_iff] using hne), if_pos hlen]
      ring
    refine ⟨hmain, fun hall => ?_⟩
    have hcount : reg.countP (fun kv => isTerminalStatus kv.2) = reg.length :=
      List.countP_eq_length.mpr hall
    have hnz : ((reg.length : ℚ)) ≠ 0 := by
      exact_mod_cast Nat.pos_iff_ne_zero.mp hlen
    rw [hmain, hcount]
    field_simp

/-- A one-item registry whose item has finished. -/
def c2reg : Registry :=
  [(("u1").data,
    { itemId := 0, index := ("1").data, title := ("Song").data
      status := ("Completed").data, progress := 100 })]

/-- C2 witness: with one Completed item the bar is set to 100. -/
theorem c2_overall_progress_witness :
    update_overall_progress c2reg 50 = 100 :=
  ((c2_overall_progress c2reg 50).2 (by decide)).2 (by decide)

/-- The failing progress-callback payload for C1: a finished caption
file. -/
def c1HookData : HookData :=
  { status := ("finished").data, filename := ("video.en.vtt").data
    downloadedBytes := 0, totalBytes := none, totalBytesEstimate := none }

/-- C1 (code bug): a `finished`-phase callback for an auxiliary caption
file — the stop flag clear, a parent item in flight — emits a `Completed`
status transition for the parent item: the auxiliary-artifact filter
exists only in the `downloading` branch, so the finished phase does change
the parent's status away from `Downloading`, contradicting the claim. -/
theorem c1_finished_aux_emits_transition :
    isAuxiliaryFile (("video.en.vtt").data) = true ∧
    progress_hook false (some (("U").data)) c1HookData =
      [HookMsg.videoProgress (("U").data) (("Completed").data) 100] := by
  constructor
  · decide
  · rfl

/-- C5: an update resolves its target by exact URL lookup first; only on
an exact miss does it fall back to the first tracked URL whose extracted
video id matches; and when neither resolution finds a record the update
returns with the registry and the tree completely unchanged (and, being a
total function, raises nothing). -/
theorem c5_update_resolution (reg : Registry) (tree : Tree) (url : List Char)
    (status : Option (List Char)) (progress : Option ℚ)
    (title : Option (List Char)) :
    (∀ v, lookupReg reg url = some v →
      find_video_by_url reg url = some (url, v)) ∧
    (lookupReg reg url = none →
      find_video_by_url reg url =
        List.find? (fun kv => urls_match url kv.1) reg) ∧
    (find_video_by_url reg url = none →
      update_video_progress reg tree url status progress title = (reg, tree)) := by
  refine ⟨fun v h => ?_, fun h => ?_, fun h => ?_⟩
  · unfold find_video_by_url
    rw [h]
  · unfold find_video_by_url
    rw [h]
  · unfold update_video_progress
    rw [h]

/-- A registry holding one video, keyed by its full watch URL. -/
def c5reg : Registry :=
  [(("https://www.youtube.com/watch?v=dQw4").data,
    { itemId := 3, index := ("1").data, title := ("Song").data
      status := ("Downloading").data, progress := 40 })]

/-- C5 witness: an update for an unrelated URL (no exact and no fuzzy
match) is silently dropped — registry and tree come back unchanged. -/
theorem c5_update_resolution_witness :
    update_video_progress c5reg [] (("https://youtu.be/zzzz").data)
      (some (("Failed").data)) (some 3) none = (c5reg, []) :=
  (c5_update_resolution c5reg [] (("https://youtu.be/zzzz").data)
    (some (("Failed").data)) (some 3) none).2.2 (by decide)

theorem optsFor_primary : optsFor (("primary").data) = (("primary").data) := rfl

theorem optsFor_fallback : optsFor (("fallback").data) = (("fallback").data) := rfl

theorem optsFor_audio : optsFor (("audio").data) = (("audio").data) := rfl

/-- C3: for every behaviour of the engine, the strategy chain tries its
strategies strictly in array order (the attempt trace is always an initial
segment of `[primary, fallback, audio]`), never invokes any strategy twice,
succeeds exactly when some strategy in the chain succeeds — the successful
attempt is the last one tried and everything before it failed, so the chain
short-circuits at the first success — and reports failure only after all
three strategies failed, with the last (audio) strategy's error as the
terminal logged cause. -/
theorem c3_strategy_chain (run : StrategyRun) :
    (((download_single_video_enhanced run).2.map Prod.fst) =
      chainStrategies.take ((download_single_video_enhanced run).2.length)) ∧
    (((download_single_video_enhanced run).2.map Prod.fst).Nodup) ∧
    ((download_single_video_enhanced run).1 = true ↔
      ∃ s ∈ chainStrategies, run s = .ok) ∧
    ((download_single_video_enhanced run).1 = true →
      ∃ pre s, (download_single_video_enhanced run).2 =
          pre ++ [(s, StratOutcome.ok)] ∧
        ∀ a ∈ pre, ∃ e, a.2 = StratOutcome.err e) ∧
    ((download_single_video_enhanced run).1 = false →
      ((download_single_video_enhanced run).2.map Prod.fst = chainStrategies) ∧
      (∀ a ∈ (download_single_video_enhanced run).2, ∃ e, a.2 = StratOutcome.err e) ∧
      ∃ e, run (("audio").data) = StratOutcome.err e ∧
        (download_single_video_enhanced run).2.getLast? =
          some ((("audio").data), StratOutcome.err e)) := by
  unfold download_single_video_enhanced
  rw [optsFor_primary, optsFor_fallback, optsFor_audio]
  cases h1 : run (("primary").data) with
  | ok =>
    refine ⟨by simp [chainStrategies], by simp, ?_, ?_, by simp⟩
    · simp only [true_iff, iff_true]
      exact ⟨("primary").data, by simp [chainStrategies], h1⟩
    · intro _
      exact ⟨[], ("primary").data, by simp, by simp⟩
  | err e1 =>
    cases h2 : run (("fallback").data) with
    | ok =>
      refine ⟨by simp [chainStrategies], by simp [chainStrategies], ?_, ?_, by simp⟩
      · simp only [true_iff, iff_true]
        exact ⟨("fallback").data, by simp [chainStrategies], h2⟩
      · intro _
        refine ⟨[((("primary").data), StratOutcome.err e1)], ("fallback").data, by simp, ?_⟩
        rintro a ha
        simp at ha
        exact ⟨e1, by simp [ha]⟩
    | err e2 =>
      cases h3 : run (("audio").data) with
      | ok =>
        refine ⟨by simp [chainStrategies], by simp [chainStrategies], ?_, ?_, by simp⟩
        · simp only [true_iff, iff_true]
          exact ⟨("audio").data, by simp [chainStrategies], h3⟩
        · intro _
          refine ⟨[((("primary").data), StratOutcome.err e1),
                   ((("fallback").data), StratOutcome.err e2)],
                  ("audio").data, by simp, ?_⟩
          rintro a ha
          simp at ha
          rcases ha with ha | ha
          · exact ⟨e1, by simp [ha]⟩
          · exact ⟨e2, by simp [ha]⟩
      | err e3 =>
        refine ⟨by simp [chainStrategies], by simp [chainStrategies], ?_,
          by intro h; simp at h, ?_⟩
        · constructor
          · intro h
            simp at h
          · rintro ⟨s, hs, hrun⟩
            simp [chainStrategies] at hs
            rcases hs with rfl | rfl | rfl
            · rw [h1] at hrun
              cases hrun
            · rw [h2] at hrun
              cases hrun
            · rw [h3] at hrun
              cases hrun
        · intro _
          refine ⟨by simp [chainStrategies], ?_, e3, rfl, rfl⟩
          rintro a ha
          simp at ha
          rcases ha with ha | ha | ha
          · exact ⟨e1, by simp [ha]⟩
          · exact ⟨e2, by simp [ha]⟩
          · exact ⟨e3, by simp [ha]⟩

/-- An engine for which only the audio strategy works. -/
def c3run : StrategyRun := fun s =>
  if s = (("audio").data) then .ok else .err (("HTTP Error 403").data)

/-- C3 witness: with primary and fallback failing and audio succeeding,
the chain reports success, and its trace is exactly the three strategies
in order with the successful audio attempt last. -/
theorem c3_strategy_chain_witness :
    (download_single_video_enhanced c3run).1 = true ∧
    ((download_single_video_enhanced c3run).2.map Prod.fst =
      chainStrategies.take ((download_single_video_enhanced c3run).2.length)) :=
  ⟨((c3_strategy_chain c3run).2.2.1).mpr ⟨(("audio").data), by decide, by decide⟩,
   (c3_strategy_chain c3run).1⟩

/-- C8: a collection download reports success exactly when at least one
child succeeded.  For the per-child strategy-chain version
(`download_playlist_enhanced`): success iff some resolvable (non-`None`)
entry has a succeeding strategy cascade — so a failed metadata probe, an
empty listing, or a listing with zero resolvable children is a terminal
failure, never an empty success.  For the single-engine-call version
(`download_playlist`): success iff the probe succeeded, the listing is
nonempty, and at least one child media file was produced. -/
theorem c8_collection_success_iff (info : Option (List (Option Unit)))
    (run : Nat → StrategyRun)
    (pinfo : Option (List Char × List (Option Unit))) (fileCount : Nat) :
    (download_playlist_enhanced info run = true ↔
      ∃ entries, info = some entries ∧
        ∃ i e, entries.get? i = some (some e) ∧
          playlistChildSucceeds (run i) = true) ∧
    (download_playlist pinfo fileCount = true ↔
      ∃ t entries, pinfo = some (t, entries) ∧ entries ≠ [] ∧ 0 < fileCount) := by
  constructor
  · cases info with
    | none => simp [download_playlist_enhanced]
    | some entries =>
      simp only [download_playlist_enhanced, Option.some.injEq]
      by_cases hemp : entries.isEmpty
      · rw [if_pos hemp]
        have : entries = [] := List.isEmpty_iff.mp hemp
        subst this
        constructor
        · intro h
          cases h
        · rintro ⟨es, rfl, i, e, hget, _⟩
          simp at hget
      · rw [if_neg hemp]
        constructor
        · intro h
          have hpos : 0 < entries.enum.countP
              (fun ie => ie.2.isSome && playlistChildSucceeds (run ie.1)) := by
            by_contra hc
            rw [if_neg hc] at h
            cases h
          rw [List.countP_pos_iff] at hpos
          obtain ⟨⟨i, oe⟩, hmem, hp⟩ := hpos
          rw [List.mem_enum_iff_get?] at hmem
          simp only [Bool.and_eq_true, Option.isSome_iff_exists] at hp
          obtain ⟨⟨e, he⟩, hsucc⟩ := hp
          exact ⟨entries, rfl, i, e, by rw [hmem, he], hsucc⟩
        · rintro ⟨es, hes, i, e, hget, hsucc⟩
          cases hes
          have hpos : 0 < entries.enum.countP
              (fun ie => ie.2.isSome && playlistChildSucceeds (run ie.1)) := by
            rw [List.countP_pos_iff]
            refine ⟨(i, some e), ?_, ?_⟩
            · rw [List.mem_enum_iff_get?]
              exact hget
            · simp [hsucc]
          rw [if_pos hpos]
  · cases pinfo with
    | none => simp [download_playlist]
    | some te =>
      obtain ⟨t, entries⟩ := te
      simp only [download_playlist, Option.some.injEq, Prod.mk.injEq]
      by_cases hemp : entries.isEmpty
      · rw [if_pos hemp]
        have : entries = [] := List.isEmpty_iff.mp hemp
        subst this
        constructor
        · intro h
          cases h
        · rintro ⟨t', es, ⟨rfl, rfl⟩, hne, _⟩
          exact (hne rfl).elim
      · rw [if_neg hemp]
        have hne : entries ≠ [] := by
          simpa [List.isEmpty_iff] using hemp
        by_cases hf : 0 < fileCount
        · rw [if_pos hf]
          simp only [true_iff]
          exact ⟨t, entries, ⟨rfl, rfl⟩, hne, hf⟩
        · rw [if_neg hf]
          constructor
          · intro h
            cases h
          · rintro ⟨t', es, ⟨rfl, rfl⟩, _, hpos⟩
            exact absurd hpos hf

/-- A three-child listing whose middle child is unavailable. -/
def c8entries : List (Option Unit) := [some (), none, some ()]

/-- C8 witness: with the first child's primary strategy succeeding and
every other engine call failing, the collection reports success; and the
plain-version collection with a nonempty listing and one produced file
also reports success, while zero produced files is failure. -/
theorem c8_collection_success_iff_witness :
    download_playlist_enhanced (some c8entries)
        (fun i _ => if i = 0 then .ok else .err (("x").data)) = true ∧
    download_playlist (some ((("T").data), c8entries)) 1 = true :=
  ⟨(c8_collection_success_iff (some c8entries)
      (fun i _ => if i = 0 then .ok else .err (("x").data))
      (some ((("T").data), c8entries)) 1).1.mpr
      ⟨c8entries, rfl, 0, (), by decide, by decide⟩,
   (c8_collection_success_iff (some c8entries)
      (fun i _ => if i = 0 then .ok else .err (("x").data))
      (some ((("T").data), c8entries)) 1).2.mpr
      ⟨(("T").data), c8entries, rfl, by decide, by decide⟩⟩

/-- A URL whose `list` parameter occurs twice: first with a non-playlist
value, then with a playlist-id value. -/
def c7url : List Char :=
  ("https://www.youtube.com/watch?v=a&list=xx&list=PLabc").data

/-- C7 counterexample: the claim's condition — *some* `list` value starts
with a known collection-id prefix — holds for this URL, yet the code
classifies it as a single video, because only `query_params['list'][0]`
(the first value) is inspected. -/
theorem c7_first_list_value_only :
    classifierSpecCondition c7url = true ∧ is_playlist_url c7url = false := by
  constructor
  · decide
  · decide

/-- C7 (amended): the classifier is total (never raises) and returns
Collection exactly when the URL parses and either the parsed path contains
`playlist` case-insensitively, or the *first* value of the `list` query
parameter starts with one of PL, UU, FL, RD, LL; in every other case —
including input on which `urlparse` raises — it returns Single. -/
theorem c7_classifier_decision (url : List Char) :
    is_playlist_url url = true ↔
      ∃ p, urlparse url = .ok p ∧
        (containsSub (("playlist").data) (pyLower p.path) = true ∨
         ∃ v, (listParamValues p.query).head? = some v ∧
           playlistIdStarts v = true) := by
  unfold is_playlist_url
  cases h : urlparse url with
  | error e =>
    simp
  | ok p =>
    simp only [Except.ok.injEq, exists_eq_left']
    by_cases hc : containsSub (("playlist").data) (pyLower p.path) = true
    · simp [hc]
    · rw [if_neg hc]
      cases hl : listParamValues p.query with
      | nil =>
        simp [hc, hl]
      | cons v vs =>
        simp [hc, hl]

/-- A plain playlist URL. -/
def c7wurl : List Char := ("https://www.youtube.com/playlist?list=PLxyz").data

/-- The parse of `c7wurl`. -/
def c7wparts : UrlParts :=
  { scheme := ("https").data, netloc := ("www.youtube.com").data
    path := ("/playlist").data, params := []
    query := ("list=PLxyz").data, fragment := [] }

/-- C7 witness: the playlist URL classifies as Collection via the
path-containment arm of the amended decision rule. -/
theorem c7_classifier_decision_witness :
    is_playlist_url c7wurl = true :=
  (c7_classifier_decision c7wurl).mpr
    ⟨c7wparts, by rfl, Or.inl (by decide)⟩

theorem charLower_toNat_add (n : Nat) (h1 : n < 91) (h2 : 65 ≤ n) :
    (Char.ofNat (n + 32)).toNat = n + 32 := by
  revert h2
  revert h1
  revert n
  decide

theorem charLower_toNat (c : Char) :
    (charLower c).toNat =
      if 65 ≤ c.toNat ∧ c.toNat ≤ 90 then c.toNat + 32 else c.toNat := by
  unfold charLower
  by_cases h : 65 ≤ c.toNat ∧ c.toNat ≤ 90
  · rw [if_pos h, if_pos h, charLower_toNat_add c.toNat (by omega) h.1]
  · rw [if_neg h, if_neg h]

theorem charLower_idem (c : Char) : charLower (charLower c) = charLower c := by
  have hout : charLower (charLower c) =
      if 65 ≤ (charLower c).toNat ∧ (charLower c).toNat ≤ 90 then
        Char.ofNat ((charLower c).toNat + 32)
      else charLower c := rfl
  rw [hout, charLower_toNat]
  by_cases h : 65 ≤ c.toNat ∧ c.toNat ≤ 90
  · rw [if_pos h, if_neg (by omega)]
  · rw [if_neg h, if_neg h]

theorem isSpaceChar_charLower (c : Char) :
    isSpaceChar (charLower c) = isSpaceChar c := by
  unfold isSpaceChar
  rw [charLower_toNat]
  by_cases h : 65 ≤ c.toNat ∧ c.toNat ≤ 90
  · rw [if_pos h]
    have hL : ((c.toNat + 32 = 32 : Bool) || (c.toNat + 32 = 9 : Bool) ||
        (c.toNat + 32 = 10 : Bool) || (c.toNat + 32 = 13 : Bool) ||
        (c.toNat + 32 = 11 : Bool) || (c.toNat + 32 = 12 : Bool)) = false := by
      simp only [Bool.or_eq_false_iff, decide_eq_false_iff_not]
      omega
    have hR : ((c.toNat = 32 : Bool) || (c.toNat = 9 : Bool) ||
        (c.toNat = 10 : Bool) || (c.toNat = 13 : Bool) ||
        (c.toNat = 11 : Bool) || (c.toNat = 12 : Bool)) = false := by
      simp only [Bool.or_eq_false_iff, decide_eq_false_iff_not]
      omega
    rw [hL, hR]
  · rw [if_neg h]

theorem pyLower_idem (l : List Char) : pyLower (pyLower l) = pyLower l := by
  unfold pyLower
  rw [List.map_map]
  congr 1
  funext c
  exact charLower_idem c

theorem dropWhile_pyLower (m : List Char) :
    (m.map charLower).dropWhile isSpaceChar =
      (m.dropWhile isSpaceChar).map charLower := by
  have hp : (isSpaceChar ∘ charLower) = isSpaceChar :=
    funext fun c => by
      simp only [Function.comp_apply]
      exact isSpaceChar_charLower c
  rw [List.dropWhile_map, hp]

theorem pyStrip_pyLower (l : List Char) :
    pyStrip (pyLower l) = pyLower (pyStrip l) := by
  unfold pyStrip pyLower
  rw [dropWhile_pyLower l, ← List.map_reverse, dropWhile_pyLower, ← List.map_reverse]

theorem noLead_dropWhile (p : Char → Bool) (l : List Char) :
    ∀ c t, l.dropWhile p = c :: t → p c = false := by
  intro c t h
  have hh := List.head?_dropWhile_not p l
  rw [h] at hh
  simpa using hh

theorem dropWhile_eq_self_of (p : Char → Bool) (l : List Char)
    (h : ∀ c t, l = c :: t → p c = false) : l.dropWhile p = l := by
  cases l with
  | nil => rfl
  | cons c t =>
    rw [List.dropWhile_cons, h c t rfl]
    simp

theorem pyStrip_eq (l : List Char) :
    pyStrip l =
      (((l.dropWhile isSpaceChar).reverse.dropWhile isSpaceChar)).reverse := rfl

theorem pyStrip_noLead (l : List Char) :
    ∀ c t, pyStrip l = c :: t → isSpaceChar c = false := by
  intro c t h
  obtain ⟨pre, hpre⟩ :=
    List.dropWhile_suffix (l := (l.dropWhile isSpaceChar).reverse)
      (p := isSpaceChar)
  have hA : l.dropWhile isSpaceChar = pyStrip l ++ pre.reverse := by
    rw [pyStrip_eq]
    calc l.dropWhile isSpaceChar
        = (l.dropWhile isSpaceChar).reverse.reverse := by rw [List.reverse_reverse]
      _ = (pre ++ (l.dropWhile isSpaceChar).reverse.dropWhile isSpaceChar).reverse := by
          rw [hpre]
      _ = ((l.dropWhile isSpaceChar).reverse.dropWhile isSpaceChar).reverse
            ++ pre.reverse := by rw [List.reverse_append]
  rw [h] at hA
  exact noLead_dropWhile isSpaceChar l c (t ++ pre.reverse)
    (by rw [hA, List.cons_append])

theorem pyStrip_noTrail (l : List Char) :
    ∀ c t, (pyStrip l).reverse = c :: t → isSpaceChar c = false := by
  intro c t h
  rw [pyStrip_eq, List.reverse_reverse] at h
  exact noLead_dropWhile isSpaceChar (l.dropWhile isSpaceChar).reverse c t h

theorem pyStrip_idem (l : List Char) : pyStrip (pyStrip l) = pyStrip l := by
  rw [pyStrip_eq (pyStrip l)]
  rw [dropWhile_eq_self_of isSpaceChar (pyStrip l) (pyStrip_noLead l)]
  rw [dropWhile_eq_self_of isSpaceChar (pyStrip l).reverse (pyStrip_noTrail l)]
  rw [List.reverse_reverse]

/-- C6 counterexample: canonicalizing `https://youtu.be/ABC` yields the
extracted id `ABC`; canonicalizing that again finds no id and falls back
to trimming and lower-casing, yielding `abc` — so
`canonicalize (canonicalize u) ≠ canonicalize u`. -/
theorem c6_not_idempotent_on_ids :
    canonicalize (canonicalize (("https://youtu.be/ABC").data)) ≠
      canonicalize (("https://youtu.be/ABC").data) := by
  decide

/-- C6 (amended): canonicalization is idempotent on every input from which
no stable identifier can be extracted — neither from the URL itself nor
from its trimmed, lower-cased fallback form; when an identifier is
extracted, re-canonicalizing the bare identifier takes the trim/lower-case
fallback, so idempotence fails whenever the identifier differs from its
lower-casing. -/
theorem c6_canonicalize_fallback_idem (u : List Char)
    (h1 : extract_video_id u = none)
    (h2 : extract_video_id (pyLower (pyStrip u)) = none) :
    canonicalize (canonicalize u) = canonicalize u := by
  unfold canonicalize
  simp only [h1, h2]
  rw [pyStrip_pyLower, pyStrip_idem, pyLower_idem]

/-- C6 witness: a URL with no extractable identifier (before and after the
fallback) canonicalizes idempotently. -/
theorem c6_canonicalize_fallback_idem_witness :
    canonicalize (canonicalize (("  HTTPS://EXAMPLE.COM/Video%201  ").data)) =
      canonicalize (("  HTTPS://EXAMPLE.COM/Video%201  ").data) :=
  c6_canonicalize_fallback_idem (("  HTTPS://EXAMPLE.COM/Video%201  ").data)
    (by decide) (by decide)

theorem dictKeys_map_replace (d : List (List Char × Bool)) (u : List Char)
    (v : Bool) :
    (d.map (fun kv => if kv.1 = u then (u, v) else kv)).map Prod.fst =
      d.map Prod.fst := by
  rw [List.map_map]
  apply List.map_congr_left
  intro kv _
  by_cases h : kv.1 = u
  · simp [Function.comp, h]
  · simp [Function.comp, h]

theorem find?_map_replace_eq (d : List (List Char × Bool)) (u : List Char)
    (v : Bool) :
    List.find? (fun kv => kv.1 = u)
      (d.map (fun kv => if kv.1 = u then (u, v) else kv)) =
      (List.find? (fun kv => kv.1 = u) d).map (fun _ => (u, v)) := by
  induction d with
  | nil => rfl
  | cons a d ih =>
    by_cases h : a.1 = u
    · rw [List.map_cons, if_pos h, List.find?_cons_of_pos _ (by simp),
        List.find?_cons_of_pos _ (by simp [h])]
      rfl
    · rw [List.map_cons, if_neg h, List.find?_cons_of_neg _ (by simp [h]),
        List.find?_cons_of_neg _ (by simp [h]), ih]

theorem find?_map_replace_ne (d : List (List Char × Bool)) (u k : List Char)
    (v : Bool) (hk : k ≠ u) :
    List.find? (fun kv => kv.1 = k)
      (d.map (fun kv => if kv.1 = u then (u, v) else kv)) =
      List.find? (fun kv => kv.1 = k) d := by
  induction d with
  | nil => rfl
  | cons a d ih =>
    by_cases h : a.1 = u
    · rw [List.map_cons, if_pos h,
        List.find?_cons_of_neg _ (by simp [Ne.symm hk]),
        List.find?_cons_of_neg _ (by simp [h, Ne.symm hk]), ih]
    · rw [List.map_cons, if_neg h]
      by_cases h2 : a.1 = k
      · rw [List.find?_cons_of_pos _ (by simp [h2]),
          List.find?_cons_of_pos _ (by simp [h2])]
      · rw [List.find?_cons_of_neg _ (by simp [h2]),
          List.find?_cons_of_neg _ (by simp [h2]), ih]

theorem dictFind_insert (d : List (List Char × Bool)) (u k : List Char)
    (v : Bool) :
    dictFind (dictInsert d u v) k = if k = u then some v else dictFind d k := by
  unfold dictInsert dictFind
  cases hfs : List.find? (fun kv => kv.1 = u) d with
  | none =>
    simp only [Option.isSome_none, Bool.false_eq_true, if_false]
    rw [List.find?_append]
    by_cases hk : k = u
    · subst hk
      rw [hfs]
      simp [List.find?]
    · rw [if_neg hk, List.find?_cons_of_neg _ (by simp [Ne.symm hk]),
        List.find?_nil]
      simp
  | some kv0 =>
    simp only [Option.isSome_some, if_true]
    by_cases hk : k = u
    · subst hk
      rw [find?_map_replace_eq, hfs]
      simp
    · rw [find?_map_replace_ne d u k v hk, if_neg hk]

theorem dictInsert_keys_nodup (d : List (List Char × Bool)) (u : List Char)
    (v : Bool) (h : (d.map Prod.fst).Nodup) :
    ((dictInsert d u v).map Prod.fst).Nodup := by
  unfold dictInsert
  cases hfs : List.find? (fun kv => kv.1 = u) d with
  | none =>
    simp only [Option.isSome_none, Bool.false_eq_true, if_false]
    rw [List.map_append]
    refine List.Nodup.append h (by simp) ?_
    intro a ha hmem
    have ha' : a = u := by simpa using hmem
    subst ha'
    obtain ⟨kv, hkv, rfl⟩ := List.mem_map.mp ha
    have := List.find?_eq_none.mp hfs kv hkv
    simp at this
  | some kv0 =>
    simp only [Option.isSome_some, if_true]
    rw [dictKeys_map_replace]
    exact h

theorem dictInsert_keys_mem (d : List (List Char × Bool)) (u : List Char)
    (v : Bool) (k : List Char) :
    k ∈ (dictInsert d u v).map Prod.fst ↔ (k ∈ d.map Prod.fst ∨ k = u) := by
  unfold dictInsert
  cases hfs : List.find? (fun kv => kv.1 = u) d with
  | none =>
    simp only [Option.isSome_none, Bool.false_eq_true, if_false]
    rw [List.map_append]
    simp
  | some kv0 =>
    simp only [Option.isSome_some, if_true]
    rw [dictKeys_map_replace]
    have hu : u ∈ d.map Prod.fst := by
      have h1 := List.find?_some hfs
      have h2 := List.mem_of_find?_eq_some hfs
      have h3 : kv0.1 = u := by simpa using h1
      exact h3 ▸ List.mem_map_of_mem Prod.fst h2
    constructor
    · intro hm
      exact Or.inl hm
    · rintro (hm | rfl)
      · exact hm
      · exact hu

theorem dictInsert_length (d : List (List Char × Bool)) (u : List Char)
    (v : Bool) : (dictInsert d u v).length ≤ d.length + 1 := by
  unfold dictInsert
  split
  · rw [List.length_map]
    omega
  · rw [List.length_append]
    simp

theorem runResults_find (outcome : Nat → Bool) :
    ∀ (urls : List (List Char)) (i : Nat) (d : List (List Char × Bool))
      (k : List Char),
    dictFind (runResults outcome i d urls) k =
      (match lastOutcome outcome i urls k with
       | some b => some b
       | none => dictFind d k) := by
  intro urls
  induction urls with
  | nil => intro i d k; rfl
  | cons u rest ih =>
    intro i d k
    simp only [runResults, lastOutcome]
    rw [ih (i + 1) (dictInsert d u (outcome i)) k]
    cases hl : lastOutcome outcome (i + 1) rest k with
    | some b => rfl
    | none =>
      simp only []
      rw [dictFind_insert]
      by_cases hk : k = u
      · subst hk
        rw [if_pos rfl, if_pos rfl]
      · rw [if_neg hk, if_neg (fun h => hk h.symm)]

theorem runResults_nodup (outcome : Nat → Bool) :
    ∀ (urls : List (List Char)) (i : Nat) (d : List (List Char × Bool)),
    (d.map Prod.fst).Nodup →
      ((runResults outcome i d urls).map Prod.fst).Nodup := by
  intro urls
  induction urls with
  | nil => intro i d h; exact h
  | cons u rest ih =>
    intro i d h
    simp only [runResults]
    exact ih (i + 1) _ (dictInsert_keys_nodup d u (outcome i) h)

theorem runResults_length (outcome : Nat → Bool) :
    ∀ (urls : List (List Char)) (i : Nat) (d : List (List Char × Bool)),
    (runResults outcome i d urls).length ≤ d.length + urls.length := by
  intro urls
  induction urls with
  | nil => intro i d; simp [runResults]
  | cons u rest ih =>
    intro i d
    simp only [runResults]
    have h1 := ih (i + 1) (dictInsert d u (outcome i))
    have h2 := dictInsert_length d u (outcome i)
    simp only [List.length_cons]
    omega

theorem runResults_mem (outcome : Nat → Bool) :
    ∀ (urls : List (List Char)) (i : Nat) (d : List (List Char × Bool))
      (k : List Char),
    k ∈ (runResults outcome i d urls).map Prod.fst ↔
      (k ∈ d.map Prod.fst ∨ k ∈ urls) := by
  intro urls
  induction urls with
  | nil => intro i d k; simp [runResults]
  | cons u rest ih =>
    intro i d k
    simp only [runResults]
    rw [ih (i + 1) (dictInsert d u (outcome i)) k, dictInsert_keys_mem]
    simp [List.mem_cons]
    tauto

theorem countP_values (d : List (List Char × Bool))
    (hnd : (d.map Prod.fst).Nodup) :
    List.countP (fun kv => kv.2) d =
      List.countP (fun k => dictFind d k = some true) (d.map Prod.fst) := by
  induction d with
  | nil => rfl
  | cons a d ih =>
    rw [List.map_cons] at hnd ⊢
    obtain ⟨hna, hnd'⟩ := List.nodup_cons.mp hnd
    rw [List.countP_cons, List.countP_cons, ih hnd']
    congr 1
    · apply List.countP_congr
      intro k hk
      have hne : a.1 ≠ k := fun h => hna (h ▸ hk)
      unfold dictFind
      rw [List.find?_cons_of_neg _ (by simp [hne])]
    · unfold dictFind
      rw [List.find?_cons_of_pos _ (by simp)]
      cases hv : a.2 <;> simp [hv]

/-- C10: after the download worker runs a URL list to completion, the
completion message's tallies satisfy `successful + failed = total` and
`total` is the input list's length, for every input — duplicates included —
and `successful` counts exactly the distinct URLs whose (last) download
attempt succeeded. -/
theorem c10_worker_tallies (urls : List (List Char)) (outcome : Nat → Bool) :
    (download_worker urls outcome).successful +
        (download_worker urls outcome).failed =
      (download_worker urls outcome).total ∧
    (download_worker urls outcome).total = urls.length ∧
    (download_worker urls outcome).successful =
      List.countP (fun k => lastOutcome outcome 0 urls k = some true)
        urls.dedup := by
  have hsuc : (download_worker urls outcome).successful =
      List.countP (fun kv => kv.2) (runResults outcome 0 [] urls) := rfl
  have hfail : (download_worker urls outcome).failed =
      urls.length - (download_worker urls outcome).successful := rfl
  have htot : (download_worker urls outcome).total = urls.length := rfl
  have hlen : (runResults outcome 0 [] urls).length ≤ urls.length := by
    simpa using runResults_length outcome urls 0 []
  have hbound : (download_worker urls outcome).successful ≤ urls.length := by
    rw [hsuc]
    exact le_trans (List.countP_le_length _) hlen
  refine ⟨?_, htot, ?_⟩
  · rw [hfail, htot]
    omega
  · rw [hsuc]
    have hnd : ((runResults outcome 0 [] urls).map Prod.fst).Nodup :=
      runResults_nodup outcome urls 0 [] (by simp)
    rw [countP_values _ hnd]
    have hdf : ∀ k, dictFind (runResults outcome 0 [] urls) k =
        lastOutcome outcome 0 urls k := by
      intro k
      rw [runResults_find outcome urls 0 [] k]
      cases lastOutcome outcome 0 urls k <;> rfl
    have hpred : (fun k => (dictFind (runResults outcome 0 [] urls) k =
          some true : Bool)) =
        (fun k => (lastOutcome outcome 0 urls k = some true : Bool)) := by
      funext k
      rw [hdf k]
    rw [hpred]
    have hperm : List.Perm ((runResults outcome 0 [] urls).map Prod.fst)
        urls.dedup := by
      apply (List.perm_ext_iff_of_nodup hnd (List.nodup_dedup _)).mpr
      intro k
      rw [List.mem_dedup]
      simpa using runResults_mem outcome urls 0 [] k
    exact hperm.countP_eq _

end YtDl
